import Mathlib

set_option maxRecDepth 16384

/-!
A shallow embedding of the single-instrument limit order book

This file embeds `src/capstone_project/order_book.hpp` and
`src/capstone_project/order_book.cpp` into Lean 4 and proves properties of the
embedded operations.

Modelling conventions:
* `double` prices are modelled as `ℚ`.  Every rational is a finite value, so the
  `std::isnan`/`std::isinf` guards of the source are vacuous in the model; the
  remaining comparisons (`<`, `>`, `==`, `-`) are exact on the values the book
  admits.  `std::numeric_limits<double>::max()` is the exact rational value of
  the largest finite double, `DBL_MAX = 2^1024 - 2^971`.
* `uint64_t`/`size_t` counters are `Nat` reduced mod `2^64` at each operation
  that the source performs on them.
* The intrusive doubly-linked FIFO queue of a price level is the list of member
  order ids in queue order (head of the list = `first_order`, last =
  `last_order`); unlinking a node is `List.erase`.
* `std::map` side indices are association lists kept in the map's iteration
  order (bids descending, asks ascending by price).
* The memory pool plus `order_lookup_` are merged into one association list
  `order_lookup : List (Nat × Order)`: in the source every code path that
  erases an id from `order_lookup_` immediately deallocates the record and
  vice versa, so the pool-resident records are exactly the lookup entries.
  Mutating a record through an `Order*` is modelled by rewriting the entry in
  place (`alReplace`).  Reading a dangling pointer (a queue member whose record
  was freed) is undefined behaviour in the source; the model stops the matching
  loop there, and no theorem below depends on behaviour past such a read.
* Console output (`std::cout` trades, `std::cerr` diagnostics) is an external
  sink; the trade events emitted by the matching engine are returned as a
  `List Trade`, diagnostics are not part of the state.
-/

/-- The modulus `2^64` of `uint64_t`/`size_t` arithmetic. -/
def U64_MOD : Nat := 2 ^ 64

/-- Wrap-around `uint64_t` subtraction `a - b`. -/
def u64sub (a b : Nat) : Nat := (a + U64_MOD - b % U64_MOD) % U64_MOD

/-- Model of `constexpr double MIN_PRICE = 0.01;` (order_book.cpp line 16), modelled as
the rational `1/100` (written as a raw `Rat` literal so that it reduces; the
double constant is the representable value nearest `0.01`, and no claim
distinguishes the two). -/
def MIN_PRICE : ℚ := ⟨1, 100, by norm_num, Nat.coprime_one_left 100⟩

/-- Model of `constexpr double MAX_PRICE = 1000000.0;` (order_book.cpp line 17). -/
def MAX_PRICE : ℚ := 1000000

/-- Model of `constexpr size_t MAX_ORDER_QUANTITY = 1000000;` (order_book.cpp line 15). -/
def MAX_ORDER_QUANTITY : Nat := 1000000

/-- Model of `std::numeric_limits<double>::max()` as an exact rational:
`(2^53 - 1) * 2^971 = 2^1024 - 2^971`. -/
def DBL_MAX : ℚ := ((2 ^ 1024 - 2 ^ 971 : Nat) : ℚ)

/-- Model of `struct Order` (order_book.hpp).  The `next`/`prev` intrusive links live in
the level queues of the model, not in the record. -/
structure Order where
  order_id : Nat
  is_buy : Bool
  price : ℚ
  quantity : Nat
  timestamp_ns : Nat
  is_active : Bool
deriving DecidableEq, Repr

/-- Model of `struct InternalPriceLevel` (order_book.cpp).  `queue` is the intrusive
doubly-linked list `first_order`/`last_order`/`next`/`prev` flattened to the
list of member ids in FIFO order. -/
structure InternalPriceLevel where
  price : ℚ
  total_quantity : Nat
  queue : List Nat
  order_count : Nat
  is_active : Bool
deriving DecidableEq, Repr

/-- A freshly (re)initialised level, as written by
`OrderBook::Impl::get_or_create_level` (order_book.cpp lines 199-205). -/
def InternalPriceLevel.fresh (p : ℚ) : InternalPriceLevel :=
  ⟨p, 0, [], 0, true⟩

/-- Model of `InternalPriceLevel::add_order` (order_book.cpp lines 107-121): append to
the queue tail, add the order's quantity to the aggregate, bump the count. -/
def InternalPriceLevel.add_order (lvl : InternalPriceLevel) (o : Order) :
    InternalPriceLevel :=
  { lvl with
    queue := lvl.queue ++ [o.order_id]
    total_quantity := (lvl.total_quantity + o.quantity) % U64_MOD
    order_count := (lvl.order_count + 1) % U64_MOD }

/-- Model of `InternalPriceLevel::remove_order` (order_book.cpp lines 123-147): no-op if
the order is already inactive; otherwise unlink it and subtract its *current*
quantity.  The source also sets `order->is_active = false`; the callers of this
model function perform that record write themselves. -/
def InternalPriceLevel.remove_order (lvl : InternalPriceLevel) (o : Order) :
    InternalPriceLevel :=
  if o.is_active then
    { lvl with
      queue := lvl.queue.erase o.order_id
      total_quantity := u64sub lvl.total_quantity o.quantity
      order_count := u64sub lvl.order_count 1 }
  else lvl

/-- Model of `InternalPriceLevel::is_empty` (order_book.cpp lines 149-151). -/
def InternalPriceLevel.is_empty (lvl : InternalPriceLevel) : Bool :=
  lvl.order_count = 0

/-- One `MATCH:` event printed by `OrderBook::Impl::match_orders`
(order_book.cpp lines 291-292). -/
structure Trade where
  bid_id : Nat
  ask_id : Nat
  price : ℚ
  quantity : Nat
deriving DecidableEq, Repr

section AssocList

variable {κ β : Type} [DecidableEq κ]

/-- Map lookup on an association list (`std::map::find` /
`std::unordered_map::find`). -/
def alFind (l : List (κ × β)) (k : κ) : Option β :=
  (List.find? (fun p => decide (p.1 = k)) l).map Prod.snd

/-- In-place mutation of the entry at key `k` (writing through the stored
pointer in the source). -/
def alReplace (l : List (κ × β)) (k : κ) (v : β) : List (κ × β) :=
  l.map (fun p => if p.1 = k then (p.1, v) else p)

/-- Erasure of the entry at key `k` (`erase` on the container). -/
def alErase (l : List (κ × β)) (k : κ) : List (κ × β) :=
  l.filter (fun p => decide (¬ p.1 = k))

end AssocList

/-- Insertion into the bid index, which `std::map<Price, ..., std::greater>`
keeps in descending key order (only called when `p` is absent). -/
def insertBidSorted :
    List (ℚ × InternalPriceLevel) → ℚ → InternalPriceLevel →
    List (ℚ × InternalPriceLevel)
  | [], p, lvl => [(p, lvl)]
  | e :: rest, p, lvl =>
    if e.1 < p then (p, lvl) :: e :: rest else e :: insertBidSorted rest p lvl

/-- Insertion into the ask index, kept in ascending key order. -/
def insertAskSorted :
    List (ℚ × InternalPriceLevel) → ℚ → InternalPriceLevel →
    List (ℚ × InternalPriceLevel)
  | [], p, lvl => [(p, lvl)]
  | e :: rest, p, lvl =>
    if p < e.1 then (p, lvl) :: e :: rest else e :: insertAskSorted rest p lvl

/-- The state of `OrderBook::Impl` (order_book.cpp lines 155-164).
`order_lookup` plays the role of both `order_lookup_` and the pool-resident
`Order` records (see the module comment). -/
structure OrderBook where
  bids : List (ℚ × InternalPriceLevel)
  asks : List (ℚ × InternalPriceLevel)
  order_lookup : List (Nat × Order)
  version : Nat
  matching_in_progress : Bool
deriving DecidableEq, Repr

namespace OrderBook

/-- Model of `OrderBook::OrderBook()`: the empty book. -/
def empty : OrderBook := ⟨[], [], [], 0, false⟩

/-- Model of `order_lookup_.find(id)` dereferenced. -/
def getOrder (b : OrderBook) (id : Nat) : Option Order :=
  alFind b.order_lookup id

/-- Writing a record through its `Order*` (visible through every container that
holds the pointer). -/
def setOrder (b : OrderBook) (o : Order) : OrderBook :=
  { b with order_lookup := alReplace b.order_lookup o.order_id o }

/-- Model of `order_lookup_.erase(id)` immediately followed by
`order_pool_.deallocate` of the record (always paired in the source). -/
def eraseOrder (b : OrderBook) (id : Nat) : OrderBook :=
  { b with order_lookup := alErase b.order_lookup id }

/-- Model of `OrderBook::Impl::get_level` (order_book.cpp lines 226-234). -/
def get_level (b : OrderBook) (p : ℚ) (is_buy : Bool) :
    Option InternalPriceLevel :=
  if is_buy then alFind b.bids p else alFind b.asks p

/-- Model of `OrderBook::Impl::get_or_create_level` (order_book.cpp lines 192-224),
returning the book in which the level at `(p, is_buy)` is present. -/
def get_or_create_level (b : OrderBook) (p : ℚ) (is_buy : Bool) : OrderBook :=
  if is_buy then
    match alFind b.bids p with
    | some _ => b
    | none => { b with bids := insertBidSorted b.bids p (.fresh p) }
  else
    match alFind b.asks p with
    | some _ => b
    | none => { b with asks := insertAskSorted b.asks p (.fresh p) }

/-- Overwriting the level record at key `(p, is_buy)` (mutation through the
`InternalPriceLevel*` held by the side index). -/
def setLevel (b : OrderBook) (p : ℚ) (is_buy : Bool)
    (lvl : InternalPriceLevel) : OrderBook :=
  if is_buy then { b with bids := alReplace b.bids p lvl }
  else { b with asks := alReplace b.asks p lvl }

/-- Model of `OrderBook::Impl::remove_price_level` (order_book.cpp lines 236-250). -/
def remove_price_level (b : OrderBook) (p : ℚ) (is_buy : Bool) : OrderBook :=
  if is_buy then { b with bids := alErase b.bids p }
  else { b with asks := alErase b.asks p }

/-- Model of `OrderBook::Impl::remove_filled_order` (order_book.cpp lines 310-329):
if the (already decremented) order has quantity zero, unlink it from its level,
drop it from the lookup, free it, and erase the level if now empty.  `lp` is
the key of the level (the `map_it` argument of the source); the returned
`bool` of the source only feeds a redundant `continue` and is dropped. -/
def remove_filled_order (b : OrderBook) (o : Order) (lp : ℚ) (is_buy : Bool) :
    OrderBook :=
  if o.quantity = 0 then
    match b.get_level lp is_buy with
    | some lvl =>
      let lvl2 := lvl.remove_order o
      let b2 := (b.setLevel lp is_buy lvl2).eraseOrder o.order_id
      if lvl2.is_empty then b2.remove_price_level lp is_buy else b2
    | none => b
  else b

/-- One iteration of the `while` loop of `OrderBook::Impl::match_orders`
(order_book.cpp lines 260-305).  `none` encodes every `break`/loop-exit
condition: an empty side, an uncrossed book (`best_bid < best_ask`), an
inactive level, a missing or inactive head order.  A queue head whose record
was freed is a dangling `first_order` in the source (undefined behaviour);
the model stops there. -/
def matchStep (b : OrderBook) : Option (OrderBook × Trade) :=
  match b.bids, b.asks with
  | (bp, bid_level) :: _, (ap, ask_level) :: _ =>
    if bp < ap then none
    else if !(bid_level.is_active && ask_level.is_active) then none
    else
      match bid_level.queue.head?, ask_level.queue.head? with
      | some bid_id, some ask_id =>
        match b.getOrder bid_id, b.getOrder ask_id with
        | some bid_order, some ask_order =>
          if !(bid_order.is_active && ask_order.is_active) then none
          else
            let match_quantity := min bid_order.quantity ask_order.quantity
            let match_price :=
              if bid_order.timestamp_ns ≤ ask_order.timestamp_ns then
                bid_order.price
              else ask_order.price
            let bid_upd :=
              { bid_order with quantity := bid_order.quantity - match_quantity }
            let ask_upd :=
              { ask_order with quantity := ask_order.quantity - match_quantity }
            let b1 := (b.setOrder bid_upd).setOrder ask_upd
            let b2 := b1.remove_filled_order bid_upd bp true
            let b3 := b2.remove_filled_order ask_upd ap false
            some (b3, ⟨bid_order.order_id, ask_order.order_id,
                       match_price, match_quantity⟩)
        | _, _ => none
      | _, _ => none
  | _, _ => none

/-- The `while (matched && ...)` loop, driven by fuel.  Every successful
iteration strictly decreases `matchFuel`, so the fuel chosen by
`match_orders` never runs out before a loop-exit condition holds. -/
def matchLoop : Nat → OrderBook → OrderBook × List Trade
  | 0, b => (b, [])
  | Nat.succ fuel, b =>
    match b.matchStep with
    | none => (b, [])
    | some (b2, t) =>
      let r := matchLoop fuel b2
      (r.1, t :: r.2)

/-- Fuel bound for the matching loop: each iteration either consumes at least
one unit of resting quantity or removes a zero-quantity head order. -/
def matchFuel (b : OrderBook) : Nat :=
  (b.order_lookup.map (fun p => p.2.quantity + 1)).sum + 1

/-- Model of `OrderBook::Impl::match_orders` (order_book.cpp lines 252-308), including
the reentrancy guard, returning the trades it printed. -/
def match_orders (b : OrderBook) : OrderBook × List Trade :=
  if b.matching_in_progress then (b, [])
  else
    let b1 := { b with matching_in_progress := true }
    let r := matchLoop (matchFuel b1) b1
    ({ r.1 with matching_in_progress := false }, r.2)

/-- Model of `OrderBook::add_order` (order_book.cpp lines 337-382).  The four
validation rejects are silent no-ops; on success the record is copied with
`next`/`prev` cleared and `is_active = true`, registered, appended to its
(possibly new) level, the version is bumped, and the matching engine runs. -/
def add_order (b : OrderBook) (o : Order) : OrderBook × List Trade :=
  if o.order_id = 0 then (b, [])
  else if o.price < MIN_PRICE ∨ o.price > MAX_PRICE then (b, [])
  else if o.quantity = 0 ∨ o.quantity > MAX_ORDER_QUANTITY then (b, [])
  else if (b.getOrder o.order_id).isSome then (b, [])
  else
    let new_order := { o with is_active := true }
    let b1 := { b with order_lookup := b.order_lookup ++ [(o.order_id, new_order)] }
    let b2 := b1.get_or_create_level o.price o.is_buy
    let b3 :=
      match b2.get_level o.price o.is_buy with
      | some lvl => b2.setLevel o.price o.is_buy (lvl.add_order new_order)
      | none => b2
    let b4 := { b3 with version := (b3.version + 1) % U64_MOD }
    b4.match_orders

/-- The level/index part of a successful cancel (order_book.cpp lines
406-414), applied after the lookup erase. -/
def cancel_level_update (b : OrderBook) (o : Order) : OrderBook :=
  match b.get_level o.price o.is_buy with
  | some lvl =>
    let lvl2 := lvl.remove_order o
    let b2 := b.setLevel o.price o.is_buy lvl2
    if lvl2.is_empty then b2.remove_price_level lvl2.price o.is_buy else b2
  | none => b

/-- Model of `OrderBook::cancel_order` (order_book.cpp lines 384-419).  Note that the
source erases the id from `order_lookup_` *before* testing `is_active`, and
deallocates the record on both the `false` (inactive) path and the successful
path. -/
def cancel_order (b : OrderBook) (id : Nat) : Bool × OrderBook :=
  if id = 0 then (false, b)
  else
    match b.getOrder id with
    | none => (false, b)
    | some o =>
      let b1 := b.eraseOrder id
      if o.is_active = false then (false, b1)
      else
        let b2 := b1.cancel_level_update o
        (true, { b2 with version := (b2.version + 1) % U64_MOD })

/-- Model of `OrderBook::amend_order` (order_book.cpp lines 421-482).  On a price
change the source calls `InternalPriceLevel::remove_order` — which sets the
record's `is_active` to `false` — and re-inserts the record at the new level
without ever setting `is_active` back to `true`; the model reproduces that
record state faithfully (`is_active` stays `false` whenever the old level was
found). -/
def amend_order (b : OrderBook) (order_id : Nat) (new_price : ℚ)
    (new_quantity : Nat) : Bool × OrderBook :=
  if order_id = 0 then (false, b)
  else if new_price < MIN_PRICE ∨ new_price > MAX_PRICE then (false, b)
  else if new_quantity = 0 ∨ new_quantity > MAX_ORDER_QUANTITY then (false, b)
  else
    match b.getOrder order_id with
    | none => (false, b)
    | some o =>
      if o.is_active = false then (false, b)
      else if o.price ≠ new_price then
        let rem : OrderBook × Bool :=
          match b.get_level o.price o.is_buy with
          | some old_level =>
            let lvl2 := old_level.remove_order o
            let bA := b.setLevel o.price o.is_buy lvl2
            let bB :=
              if lvl2.is_empty then bA.remove_price_level lvl2.price o.is_buy
              else bA
            (bB, false)
          | none => (b, o.is_active)
        let o2 := { o with price := new_price, quantity := new_quantity,
                           is_active := rem.2 }
        let b2 := rem.1.setOrder o2
        let b3 := b2.get_or_create_level new_price o.is_buy
        match b3.get_level new_price o.is_buy with
        | some new_level =>
          let b4 := b3.setLevel new_price o.is_buy (new_level.add_order o2)
          (true, { b4 with version := (b4.version + 1) % U64_MOD })
        | none => (false, b2)
      else
        match b.get_level o.price o.is_buy with
        | some lvl =>
          let lvl2 :=
            { lvl with total_quantity :=
                (u64sub lvl.total_quantity o.quantity + new_quantity) % U64_MOD }
          let b1 := (b.setLevel o.price o.is_buy lvl2).setOrder
              { o with quantity := new_quantity }
          (true, { b1 with version := (b1.version + 1) % U64_MOD })
        | none => (false, b)

/-- Model of `OrderBook::get_best_bid` (order_book.cpp lines 545-548): `0.0` sentinel on
an empty bid side, else the first (highest) level's price field. -/
def get_best_bid (b : OrderBook) : ℚ :=
  match b.bids with
  | [] => 0
  | e :: _ => e.2.price

/-- Model of `OrderBook::get_best_ask` (order_book.cpp lines 550-553):
`std::numeric_limits<double>::max()` sentinel on an empty ask side, else the
first (lowest) level's price field. -/
def get_best_ask (b : OrderBook) : ℚ :=
  match b.asks with
  | [] => DBL_MAX
  | e :: _ => e.2.price

/-- Model of `OrderBook::get_spread` (order_book.cpp lines 555-558): `0` only when the
best ask equals the `DBL_MAX` sentinel, otherwise `best_ask - best_bid`. -/
def get_spread (b : OrderBook) : ℚ :=
  if b.get_best_ask = DBL_MAX then 0 else b.get_best_ask - b.get_best_bid

/-- Model of `OrderBook::get_version`. -/
def get_version (b : OrderBook) : Nat := b.version

/-- Model of `OrderBook::get_order_count` (`order_lookup_.size()`). -/
def get_order_count (b : OrderBook) : Nat := b.order_lookup.length

/-- Model of `OrderBook::get_bid_levels`. -/
def get_bid_levels (b : OrderBook) : Nat := b.bids.length

/-- Model of `OrderBook::get_ask_levels`. -/
def get_ask_levels (b : OrderBook) : Nat := b.asks.length

/-- The sum of the remaining quantities of a level's live members: queue
members whose record still exists and is active (spec §3, invariant 1). -/
def liveMemberSum (b : OrderBook) (lvl : InternalPriceLevel) : Nat :=
  (lvl.queue.map (fun id =>
    match b.getOrder id with
    | some o => if o.is_active then o.quantity else 0
    | none => 0)).sum

/-- The id of the head order of the best bid level, if any. -/
def bidHeadId (b : OrderBook) : Option Nat :=
  match b.bids with
  | [] => none
  | e :: _ => e.2.queue.head?

/-- The id of the head order of the best ask level, if any. -/
def askHeadId (b : OrderBook) : Option Nat :=
  match b.asks with
  | [] => none
  | e :: _ => e.2.queue.head?

/-- The record of the head order of the best bid level, if any. -/
def bidHead (b : OrderBook) : Option Order :=
  match b.bidHeadId with
  | some id => b.getOrder id
  | none => none

/-- The record of the head order of the best ask level, if any. -/
def askHead (b : OrderBook) : Option Order :=
  match b.askHeadId with
  | some id => b.getOrder id
  | none => none

/-- The validation predicate of `add_order` as the source implements it: the
accepted price interval is the *closed* `[MIN_PRICE, MAX_PRICE]` (the code
rejects on `price < MIN_PRICE || price > MAX_PRICE`). -/
def addValid (b : OrderBook) (o : Order) : Prop :=
  o.order_id ≠ 0 ∧ MIN_PRICE ≤ o.price ∧ o.price ≤ MAX_PRICE ∧
    1 ≤ o.quantity ∧ o.quantity ≤ MAX_ORDER_QUANTITY ∧
    b.getOrder o.order_id = none

instance (b : OrderBook) (o : Order) : Decidable (addValid b o) := by
  unfold addValid; infer_instance

end OrderBook

/-! ## Concrete scenario states used by the theorems below -/

/-- Book after: add sell id 1 @101×300 (ts 1), then add buy id 2 @102×200
(ts 2).  The two orders cross and match for 200 @ 101; the buy is fully
filled and removed, the sell rests with remaining quantity 100. -/
def partialFillBook : OrderBook :=
  ((OrderBook.empty.add_order ⟨1, false, 101, 300, 1, true⟩).1.add_order
    ⟨2, true, 102, 200, 2, true⟩).1

/-- Book with a single resting buy id 1 @100×10 (ts 1). -/
def oneBidBook : OrderBook :=
  (OrderBook.empty.add_order ⟨1, true, 100, 10, 1, true⟩).1

/-- The book `oneBidBook` after the successful price-changing
`amend_order(1, 101, 10)`: the order now rests at level 101 but its record's
`is_active` flag is `false` (the source never resets it after
`InternalPriceLevel::remove_order`). -/
def amendedBidBook : OrderBook := (oneBidBook.amend_order 1 101 10).2

/-- The book `amendedBidBook` after adding sell id 2 @100×5 (ts 2): it is
crossed (best bid 101 > best ask 100) but the matching engine stops on the
inactive bid head, leaving the book crossed. -/
def crossedBook : OrderBook :=
  (amendedBidBook.add_order ⟨2, false, 100, 5, 2, true⟩).1

/-- Scenario 3 of the spec (FIFO): three buys @100 of quantities 100, 200,
150 (ts 1, 2, 3), then one sell @100×250 (ts 4). -/
def fifoBook : OrderBook :=
  ((((OrderBook.empty.add_order ⟨1, true, 100, 100, 1, true⟩).1.add_order
    ⟨2, true, 100, 200, 2, true⟩).1.add_order
    ⟨3, true, 100, 150, 3, true⟩).1.add_order
    ⟨4, false, 100, 250, 4, true⟩).1

/-- The book state on which the matching engine runs inside the fourth
`add_order` of `fifoBook`: the sell has just been inserted, the engine's
reentrancy flag is set. -/
def fifoPreMatch : OrderBook :=
  ⟨[(100, ⟨100, 450, [1, 2, 3], 3, true⟩)],
   [(100, ⟨100, 250, [4], 1, true⟩)],
   [(1, ⟨1, true, 100, 100, 1, true⟩), (2, ⟨2, true, 100, 200, 2, true⟩),
    (3, ⟨3, true, 100, 150, 3, true⟩), (4, ⟨4, false, 100, 250, 4, true⟩)],
   4, true⟩

/-- The book `fifoPreMatch` after one match step: head buy id 1 fully filled and
removed, the sell partially filled to 150. -/
def fifoMid : OrderBook :=
  ⟨[(100, ⟨100, 450, [2, 3], 2, true⟩)],
   [(100, ⟨100, 250, [4], 1, true⟩)],
   [(2, ⟨2, true, 100, 200, 2, true⟩), (3, ⟨3, true, 100, 150, 3, true⟩),
    (4, ⟨4, false, 100, 150, 4, true⟩)],
   4, true⟩

/-- A crossed pre-match state in which the resting ask (id 1, ts 5) is older
than the incoming bid (id 2, ts 9). -/
def tsPreMatch : OrderBook :=
  ⟨[(101, ⟨101, 10, [2], 1, true⟩)],
   [(100, ⟨100, 10, [1], 1, true⟩)],
   [(1, ⟨1, false, 100, 10, 5, true⟩), (2, ⟨2, true, 101, 10, 9, true⟩)],
   2, true⟩

/-- A crossed pre-match state in which the two head orders carry exactly the
same arrival timestamp (5). -/
def tiePreMatch : OrderBook :=
  ⟨[(101, ⟨101, 7, [2], 1, true⟩)],
   [(100, ⟨100, 7, [1], 1, true⟩)],
   [(1, ⟨1, false, 100, 7, 5, true⟩), (2, ⟨2, true, 101, 7, 5, true⟩)],
   2, true⟩

/-- Book with a single resting sell id 1 @100×10 and no bids. -/
def oneAskBook : OrderBook :=
  (OrderBook.empty.add_order ⟨1, false, 100, 10, 1, true⟩).1

/-! ## Theorems for the claims -/

/-- Claim C1 (code_bug evaluation).  After the mutating operation sequence
"add sell 1 @101×300; add buy 2 @102×200" (the second add triggers a match of
200 @ 101), the ask level present in the side index carries
`total_quantity = 300` while the sum of the remaining quantities of its live
member orders is `100`: the matching engine decrements the matched orders'
quantities but never the level aggregate, so the aggregate invariant claimed
by the spec fails after a partial fill. -/
theorem c1_level_aggregate_diverges :
    partialFillBook.asks = [(101, ⟨101, 300, [1], 1, true⟩)] ∧
    partialFillBook.liveMemberSum ⟨101, 300, [1], 1, true⟩ = 100 ∧
    (300 : Nat) ≠ 100 := by decide

/-- Claim C2 (code_bug evaluation).  After the operation sequence "add buy 1
@100×10; amend 1 → (101, 10); add sell 2 @100×5" the final `add_order` call
returns with both sides non-empty and best bid 101 > best ask 100: the book
is left crossed because the price-amended bid head is inactive and the
matching engine's head guard stops without matching. -/
theorem c2_crossed_after_add :
    crossedBook.bids ≠ [] ∧ crossedBook.asks ≠ [] ∧
    crossedBook.get_best_bid = 101 ∧ crossedBook.get_best_ask = 100 ∧
    ¬ crossedBook.get_best_bid < crossedBook.get_best_ask := by decide

/-- Claim C3 (code_bug evaluation).  The price-changing
`amend_order(1, 101, 10)` on `oneBidBook` succeeds and does leave the order at
the tail of the level-101 queue with its original id and timestamp — but the
record's liveness flag is `false`, so a subsequent `cancel_order 1` returns
`false` (not `true` as claimed) and a subsequent valid `amend_order` also
fails. -/
theorem c3_amended_order_not_live :
    (oneBidBook.amend_order 1 101 10).1 = true ∧
    alFind amendedBidBook.bids (101 : ℚ) = some ⟨101, 10, [1], 1, true⟩ ∧
    amendedBidBook.getOrder 1 = some ⟨1, true, 101, 10, 1, false⟩ ∧
    (amendedBidBook.cancel_order 1).1 = false ∧
    (amendedBidBook.amend_order 1 102 10).1 = false := by decide

/-- Claim C4 (code_bug evaluation).  `cancel_order 1` on `amendedBidBook`
returns `false`, yet it erases the id from the order lookup: the observable
order count drops from 1 to 0, so this rejected operation is not atomic. -/
theorem c4_rejected_cancel_mutates :
    (amendedBidBook.cancel_order 1).1 = false ∧
    amendedBidBook.get_order_count = 1 ∧
    (amendedBidBook.cancel_order 1).2.get_order_count = 0 := by decide

/-- Claim C5 (counterexample).  An incoming buy (id 2, ts 5) whose caller-chosen
timestamp is *earlier* than the resting sell's (id 1, ts 10) trades at the
*incoming* order's price 101, not at the resting order's price 100: the
"incoming order always trades at the resting order's price" part of the claim
fails without a timestamp-monotonicity assumption. -/
theorem c5_incoming_price_counterexample :
    ((OrderBook.empty.add_order ⟨1, false, 100, 10, 10, true⟩).1.add_order
      ⟨2, true, 101, 10, 5, true⟩).2 = [⟨2, 1, 101, 10⟩] ∧
    (101 : ℚ) ≠ 100 := by decide

/-- Claim C6 (counterexample).  On a book whose bid side is empty but whose ask
side holds a sell @100, `get_spread` returns `100 - 0 = 100`, not the `0` the
claim requires for "either side empty": the source only tests the
`DBL_MAX` ask sentinel. -/
theorem c6_spread_counterexample :
    oneAskBook.bids = [] ∧ oneAskBook.asks ≠ [] ∧
    oneAskBook.get_spread = 100 ∧ (100 : ℚ) ≠ 0 := by
  have hb : oneAskBook.bids = [] := by decide
  have ha : oneAskBook.asks = [(100, ⟨100, 10, [1], 1, true⟩)] := by decide
  have hne : ¬ ((100 : ℚ) = DBL_MAX) := by decide
  refine ⟨hb, by simp [ha], ?_, by norm_num⟩
  simp only [OrderBook.get_spread, OrderBook.get_best_ask, OrderBook.get_best_bid,
    ha, hb, hne, if_false]
  norm_num

/-- Claim C8 (counterexample).  An order priced exactly at
`MIN_PRICE = 0.01` — excluded by the claim's half-open interval
`(MIN_PRICE, MAX_PRICE]` — is accepted: the book changes (the order rests,
the version becomes 1), refuting the claimed "only if" at this input. -/
theorem c8_min_price_accepted :
    (OrderBook.empty.add_order ⟨1, true, MIN_PRICE, 1, 1, true⟩).1.getOrder 1 =
      some ⟨1, true, MIN_PRICE, 1, 1, true⟩ ∧
    (OrderBook.empty.add_order ⟨1, true, MIN_PRICE, 1, 1, true⟩).1.get_version
      = 1 ∧
    ¬ MIN_PRICE < MIN_PRICE := by decide

/-! ## Helper lemmas: association lists -/

theorem alFind_cons {κ β : Type} [DecidableEq κ] (a : κ × β)
    (l : List (κ × β)) (k : κ) :
    alFind (a :: l) k = if a.1 = k then some a.2 else alFind l k := by
  by_cases h : a.1 = k <;> simp [alFind, List.find?_cons, h]

theorem alFind_alErase_self {κ β : Type} [DecidableEq κ]
    (l : List (κ × β)) (k : κ) : alFind (alErase l k) k = none := by
  induction l with
  | nil => rfl
  | cons a t ih =>
    by_cases h : a.1 = k
    · simpa [alErase, List.filter_cons, h] using ih
    · simpa [alErase, List.filter_cons, h, alFind_cons] using ih

theorem alFind_alErase_ne {κ β : Type} [DecidableEq κ]
    (l : List (κ × β)) (k k' : κ) (h : k' ≠ k) :
    alFind (alErase l k) k' = alFind l k' := by
  induction l with
  | nil => rfl
  | cons a t ih =>
    rcases eq_or_ne a.1 k with h2 | h2
    · rw [show alErase (a :: t) k = alErase t k by
          simp [alErase, List.filter_cons, h2],
        ih, alFind_cons, if_neg (fun hc => h (hc.symm.trans h2))]
    · rw [show alErase (a :: t) k = a :: alErase t k by
          simp [alErase, List.filter_cons, h2],
        alFind_cons, alFind_cons, ih]

theorem alFind_alReplace_ne {κ β : Type} [DecidableEq κ]
    (l : List (κ × β)) (k k' : κ) (v : β) (h : k' ≠ k) :
    alFind (alReplace l k v) k' = alFind l k' := by
  induction l with
  | nil => rfl
  | cons a t ih =>
    rcases eq_or_ne a.1 k with h2 | h2
    · have h3 : ¬ a.1 = k' := fun hc => h (hc.symm.trans h2)
      rw [show alReplace (a :: t) k v = (a.1, v) :: alReplace t k v by
          simp [alReplace, h2],
        alFind_cons, alFind_cons, if_neg h3, if_neg h3, ih]
    · rw [show alReplace (a :: t) k v = a :: alReplace t k v by
          simp [alReplace, h2],
        alFind_cons, alFind_cons, ih]

/-! ## Helper lemmas: field stability of the book operations -/

theorem order_lookup_setLevel (b : OrderBook) (p : ℚ) (s : Bool)
    (lvl : InternalPriceLevel) :
    (b.setLevel p s lvl).order_lookup = b.order_lookup := by
  cases s <;> rfl

theorem order_lookup_remove_price_level (b : OrderBook) (p : ℚ) (s : Bool) :
    (b.remove_price_level p s).order_lookup = b.order_lookup := by
  cases s <;> rfl

theorem order_lookup_get_or_create_level (b : OrderBook) (p : ℚ) (s : Bool) :
    (b.get_or_create_level p s).order_lookup = b.order_lookup := by
  unfold OrderBook.get_or_create_level
  cases s
  · cases alFind b.asks p <;> rfl
  · cases alFind b.bids p <;> rfl

theorem getOrder_setLevel (b : OrderBook) (p : ℚ) (s : Bool)
    (lvl : InternalPriceLevel) (id : Nat) :
    (b.setLevel p s lvl).getOrder id = b.getOrder id := by
  simp [OrderBook.getOrder, order_lookup_setLevel]

theorem getOrder_remove_price_level (b : OrderBook) (p : ℚ) (s : Bool)
    (id : Nat) :
    (b.remove_price_level p s).getOrder id = b.getOrder id := by
  simp [OrderBook.getOrder, order_lookup_remove_price_level]

theorem getOrder_setOrder_ne (b : OrderBook) (o : Order) (id : Nat)
    (h : id ≠ o.order_id) : (b.setOrder o).getOrder id = b.getOrder id :=
  alFind_alReplace_ne _ _ _ _ h

theorem getOrder_eraseOrder_self (b : OrderBook) (id : Nat) :
    (b.eraseOrder id).getOrder id = none :=
  alFind_alErase_self _ _

theorem getOrder_eraseOrder_ne (b : OrderBook) (id id' : Nat) (h : id' ≠ id) :
    (b.eraseOrder id).getOrder id' = b.getOrder id' :=
  alFind_alErase_ne _ _ _ h

theorem getOrder_remove_filled_order_ne (b : OrderBook) (o : Order) (lp : ℚ)
    (s : Bool) (id : Nat) (h : id ≠ o.order_id) :
    (b.remove_filled_order o lp s).getOrder id = b.getOrder id := by
  unfold OrderBook.remove_filled_order
  split
  · cases hL : b.get_level lp s with
    | none => rfl
    | some lvl =>
      simp only []
      split
      · rw [getOrder_remove_price_level, getOrder_eraseOrder_ne _ _ _ h,
          getOrder_setLevel]
      · rw [getOrder_eraseOrder_ne _ _ _ h, getOrder_setLevel]
  · rfl

theorem version_setOrder (b : OrderBook) (o : Order) :
    (b.setOrder o).version = b.version := rfl

theorem version_eraseOrder (b : OrderBook) (id : Nat) :
    (b.eraseOrder id).version = b.version := rfl

theorem version_setLevel (b : OrderBook) (p : ℚ) (s : Bool)
    (lvl : InternalPriceLevel) : (b.setLevel p s lvl).version = b.version := by
  cases s <;> rfl

theorem version_remove_price_level (b : OrderBook) (p : ℚ) (s : Bool) :
    (b.remove_price_level p s).version = b.version := by
  cases s <;> rfl

theorem version_get_or_create_level (b : OrderBook) (p : ℚ) (s : Bool) :
    (b.get_or_create_level p s).version = b.version := by
  unfold OrderBook.get_or_create_level
  cases s
  · cases alFind b.asks p <;> rfl
  · cases alFind b.bids p <;> rfl

theorem version_remove_filled_order (b : OrderBook) (o : Order) (lp : ℚ)
    (s : Bool) : (b.remove_filled_order o lp s).version = b.version := by
  unfold OrderBook.remove_filled_order
  split
  · cases hL : b.get_level lp s with
    | none => rfl
    | some lvl =>
      simp only []
      split
      · rw [version_remove_price_level, version_eraseOrder, version_setLevel]
      · rw [version_eraseOrder, version_setLevel]
  · rfl

/-- Elimination principle for a successful `matchStep`: it exposes the two
best levels, the two head orders, the emitted trade and the construction of
the successor state, exactly as the loop body of
`OrderBook::Impl::match_orders` computes them. -/
theorem matchStep_elim (b b' : OrderBook) (t : Trade)
    (h : b.matchStep = some (b', t)) :
    ∃ (bp : ℚ) (bl : InternalPriceLevel) (brest : List (ℚ × InternalPriceLevel))
      (ap : ℚ) (al : InternalPriceLevel) (arest : List (ℚ × InternalPriceLevel))
      (bid_id ask_id : Nat) (bo ao : Order),
      b.bids = (bp, bl) :: brest ∧
      b.asks = (ap, al) :: arest ∧
      ¬ bp < ap ∧
      bl.queue.head? = some bid_id ∧
      al.queue.head? = some ask_id ∧
      b.getOrder bid_id = some bo ∧
      b.getOrder ask_id = some ao ∧
      bo.is_active = true ∧
      ao.is_active = true ∧
      t = ⟨bo.order_id, ao.order_id,
           if bo.timestamp_ns ≤ ao.timestamp_ns then bo.price else ao.price,
           min bo.quantity ao.quantity⟩ ∧
      b' = ((((b.setOrder
                { bo with quantity := bo.quantity - min bo.quantity ao.quantity }).setOrder
                { ao with quantity := ao.quantity - min bo.quantity ao.quantity }).remove_filled_order
                { bo with quantity := bo.quantity - min bo.quantity ao.quantity } bp
                true).remove_filled_order
                { ao with quantity := ao.quantity - min bo.quantity ao.quantity } ap
                false) := by
  rcases hb : b.bids with _ | ⟨⟨bp, bl⟩, brest⟩
  · simp [OrderBook.matchStep, hb] at h
  rcases ha : b.asks with _ | ⟨⟨ap, al⟩, arest⟩
  · simp [OrderBook.matchStep, hb, ha] at h
  by_cases hlt : bp < ap
  · simp [OrderBook.matchStep, hb, ha, hlt] at h
  rcases hq1 : bl.queue.head? with _ | bid_id
  · simp [OrderBook.matchStep, hb, ha, hlt, hq1] at h
  rcases hq2 : al.queue.head? with _ | ask_id
  · simp [OrderBook.matchStep, hb, ha, hlt, hq1, hq2] at h
  rcases hg1 : b.getOrder bid_id with _ | bo
  · simp [OrderBook.matchStep, hb, ha, hlt, hq1, hq2, hg1] at h
  rcases hg2 : b.getOrder ask_id with _ | ao
  · simp [OrderBook.matchStep, hb, ha, hlt, hq1, hq2, hg1, hg2] at h
  by_cases hact : (bl.is_active && al.is_active) = true
  all_goals by_cases hact2 : (bo.is_active && ao.is_active) = true
  all_goals
    simp only [OrderBook.matchStep, hb, ha, if_neg hlt, hq1, hq2, hg1, hg2,
      hact, hact2, Bool.not_true, Bool.not_false, Bool.false_eq_true,
      if_false, if_true, Option.some.injEq, Prod.mk.injEq, reduceCtorEq] at h
  · obtain ⟨h1, h2⟩ := h
    refine ⟨bp, bl, brest, ap, al, arest, bid_id, ask_id, bo, ao, rfl, rfl, hlt,
      hq1, hq2, hg1, hg2, (Bool.and_eq_true _ _ |>.mp hact2).1,
      (Bool.and_eq_true _ _ |>.mp hact2).2, h2.symm, h1.symm⟩

theorem version_matchStep (b b' : OrderBook) (t : Trade)
    (h : b.matchStep = some (b', t)) : b'.version = b.version := by
  obtain ⟨bp, bl, brest, ap, al, arest, bid_id, ask_id, bo, ao,
    hb, ha, hlt, hq1, hq2, hg1, hg2, hA1, hA2, ht, hb'⟩ := matchStep_elim b b' t h
  rw [hb', version_remove_filled_order, version_remove_filled_order,
    version_setOrder, version_setOrder]

theorem version_matchLoop (fuel : Nat) :
    ∀ b : OrderBook, ((OrderBook.matchLoop fuel b).1).version = b.version := by
  induction fuel with
  | zero => intro b; rfl
  | succ n ih =>
    intro b
    unfold OrderBook.matchLoop
    cases hs : b.matchStep with
    | none => rfl
    | some r =>
      simp only []
      rw [ih r.1, version_matchStep b r.1 r.2 (by rw [hs])]

theorem version_match_orders (b : OrderBook) :
    ((b.match_orders).1).version = b.version := by
  unfold OrderBook.match_orders
  split
  · rfl
  · simp [version_matchLoop]

theorem version_matchLoop_pres (fuel : Nat) :
    ∀ b : OrderBook, ((OrderBook.matchLoop fuel b).1).version = b.version := by
  induction fuel with
  | zero => intro b; rfl
  | succ n ih =>
    intro b
    unfold OrderBook.matchLoop
    cases hs : b.matchStep with
    | none => rfl
    | some r =>
      simp only []
      rw [ih r.1, version_matchStep b r.1 r.2 (by rw [hs])]

theorem order_lookup_cancel_level_update (b : OrderBook) (o : Order) :
    (b.cancel_level_update o).order_lookup = b.order_lookup := by
  unfold OrderBook.cancel_level_update
  cases hL : b.get_level o.price o.is_buy with
  | none => rfl
  | some lvl =>
    simp only []
    split
    · rw [order_lookup_remove_price_level, order_lookup_setLevel]
    · rw [order_lookup_setLevel]

theorem succ_mod_ne (v : Nat) : (v + 1) % U64_MOD ≠ v := by
  intro hEq
  have hM : 1 < U64_MOD := by norm_num [U64_MOD]
  rcases Nat.lt_or_ge v U64_MOD with hv | hv
  · rcases Nat.lt_or_ge (v + 1) U64_MOD with h1 | h1
    · rw [Nat.mod_eq_of_lt h1] at hEq; omega
    · have h2 : v + 1 = U64_MOD := by omega
      rw [h2, Nat.mod_self] at hEq; omega
  · have := Nat.mod_lt (v + 1) (show 0 < U64_MOD by omega)
    omega

theorem add_order_version_of_valid (b : OrderBook) (o : Order)
    (hv : OrderBook.addValid b o) :
    ((b.add_order o).1).version = (b.version + 1) % U64_MOD := by
  obtain ⟨h1, h2a, h2b, h3a, h3b, h4⟩ := hv
  unfold OrderBook.add_order
  rw [if_neg h1, if_neg (not_or.mpr ⟨not_lt.mpr h2a, not_lt.mpr h2b⟩),
    if_neg (not_or.mpr ⟨Nat.one_le_iff_ne_zero.mp h3a, not_lt.mpr h3b⟩),
    if_neg (by rw [h4]; simp)]
  simp only [version_match_orders]
  split <;>
    simp [version_setLevel, version_get_or_create_level]

/-- Claim C5 (amended).  In every match step the trade price is the price of the
head order with the weakly earlier timestamp, ties resolved to the bid head
(order_book.cpp lines 288-289): if the bid head's timestamp is less than or
equal to the ask head's, the trade prints the bid head's price, otherwise the
ask head's.  Consequently, right after an `add_order` whose incoming order
carries a strictly later timestamp than the resting head it crosses (weakly
later when the incoming order is the sell), the trade executes at the resting
order's price. -/
theorem c5_trade_price_rule (b b' : OrderBook) (t : Trade) (bo ao : Order)
    (h : b.matchStep = some (b', t)) (hbo : b.bidHead = some bo)
    (hao : b.askHead = some ao) :
    (bo.timestamp_ns ≤ ao.timestamp_ns → t.price = bo.price) ∧
    (ao.timestamp_ns < bo.timestamp_ns → t.price = ao.price) := by
  obtain ⟨bp, bl, brest, ap, al, arest, bid_id, ask_id, bo2, ao2, hb, ha, hlt,
    hq1, hq2, hg1, hg2, hA1, hA2, ht, hb'⟩ := matchStep_elim b b' t h
  have hbo2 : b.bidHead = some bo2 := by
    simp [OrderBook.bidHead, OrderBook.bidHeadId, hb, hq1, hg1]
  have hao2 : b.askHead = some ao2 := by
    simp [OrderBook.askHead, OrderBook.askHeadId, ha, hq2, hg2]
  rw [hbo] at hbo2
  rw [hao] at hao2
  obtain rfl : bo = bo2 := Option.some.inj hbo2
  obtain rfl : ao = ao2 := Option.some.inj hao2
  subst ht
  constructor
  · intro hle
    simp [hle]
  · intro hgt
    simp [not_le.mpr hgt]

/-- Claim C5 witness: `tsPreMatch` holds a resting sell (id 1, ts 5) crossed by
a bid (id 2, ts 9); the rule applied there yields the two instantiated
implications. -/
theorem c5_trade_price_rule_witness :
    ((9 : Nat) ≤ 5 → (100 : ℚ) = 101) ∧ ((5 : Nat) < 9 → (100 : ℚ) = 100) :=
  c5_trade_price_rule tsPreMatch ⟨[], [], [], 2, true⟩ ⟨2, 1, 100, 10⟩
    ⟨2, true, 101, 10, 9, true⟩ ⟨1, false, 100, 10, 5, true⟩
    (by decide) (by decide) (by decide)

/-- Claim C10 (confirmed).  When the two head orders carry exactly equal arrival
timestamps, the `<=` comparison of order_book.cpp line 288 selects the bid
head's price; `matchStep` is a function of the book state, so the choice is
deterministic for every such state. -/
theorem c10_tie_goes_to_bid (b b' : OrderBook) (t : Trade) (bo ao : Order)
    (h : b.matchStep = some (b', t)) (hbo : b.bidHead = some bo)
    (hao : b.askHead = some ao)
    (hts : bo.timestamp_ns = ao.timestamp_ns) : t.price = bo.price := by
  obtain ⟨bp, bl, brest, ap, al, arest, bid_id, ask_id, bo2, ao2, hb, ha, hlt,
    hq1, hq2, hg1, hg2, hA1, hA2, ht, hb'⟩ := matchStep_elim b b' t h
  have hbo2 : b.bidHead = some bo2 := by
    simp [OrderBook.bidHead, OrderBook.bidHeadId, hb, hq1, hg1]
  have hao2 : b.askHead = some ao2 := by
    simp [OrderBook.askHead, OrderBook.askHeadId, ha, hq2, hg2]
  rw [hbo] at hbo2
  rw [hao] at hao2
  obtain rfl : bo = bo2 := Option.some.inj hbo2
  obtain rfl : ao = ao2 := Option.some.inj hao2
  subst ht
  simp [le_of_eq hts]

/-- Claim C10 witness: in `tiePreMatch` both heads have timestamp 5 and the
emitted trade price is the bid head's price 101. -/
theorem c10_tie_goes_to_bid_witness : (101 : ℚ) = 101 :=
  c10_tie_goes_to_bid tiePreMatch ⟨[], [], [], 2, true⟩ ⟨2, 1, 101, 7⟩
    ⟨2, true, 101, 7, 5, true⟩ ⟨1, false, 100, 7, 5, true⟩
    (by decide) (by decide) (by decide) (by decide)

/-- Claim C7 (confirmed).  FIFO fill discipline: every match step trades
exactly the head (earliest-arrived) order of each best level — the emitted
trade names the two head records — and leaves the record of every other
resting order untouched, so earlier-arrived orders at a price are consumed
before later-arrived ones.  In particular, for the spec's Scenario 3 (three
buys 100/200/150 at 100, then a sell 250 at 100), the first buy is fully
filled and removed, the second is partially filled to 50, and the third is
untouched, with the level queue left as `[2, 3]`. -/
theorem c7_fifo_discipline (b b' : OrderBook) (t : Trade)
    (h : b.matchStep = some (b', t)) :
    (Option.map Order.order_id b.bidHead = some t.bid_id ∧
     Option.map Order.order_id b.askHead = some t.ask_id ∧
     ∀ oid : Nat, Option.map Order.order_id b.bidHead ≠ some oid →
       Option.map Order.order_id b.askHead ≠ some oid →
       b'.getOrder oid = b.getOrder oid) ∧
    (fifoBook.getOrder 1 = none ∧
     fifoBook.getOrder 2 = some ⟨2, true, 100, 50, 2, true⟩ ∧
     fifoBook.getOrder 3 = some ⟨3, true, 100, 150, 3, true⟩ ∧
     fifoBook.bids.map (fun e => e.2.queue) = [[2, 3]]) := by
  refine ⟨?_, by decide⟩
  obtain ⟨bp, bl, brest, ap, al, arest, bid_id, ask_id, bo, ao, hb, ha, hlt,
    hq1, hq2, hg1, hg2, hA1, hA2, ht, hb'⟩ := matchStep_elim b b' t h
  have hbo2 : b.bidHead = some bo := by
    simp [OrderBook.bidHead, OrderBook.bidHeadId, hb, hq1, hg1]
  have hao2 : b.askHead = some ao := by
    simp [OrderBook.askHead, OrderBook.askHeadId, ha, hq2, hg2]
  subst ht
  subst hb'
  refine ⟨by simp [hbo2], by simp [hao2], ?_⟩
  intro oid h1 h2
  rw [hbo2] at h1
  rw [hao2] at h2
  have h1' : oid ≠ bo.order_id := fun hc => h1 (by simp [hc])
  have h2' : oid ≠ ao.order_id := fun hc => h2 (by simp [hc])
  rw [getOrder_remove_filled_order_ne _
      { ao with quantity := ao.quantity - min bo.quantity ao.quantity }
      ap false oid h2',
    getOrder_remove_filled_order_ne _
      { bo with quantity := bo.quantity - min bo.quantity ao.quantity }
      bp true oid h1',
    getOrder_setOrder_ne _
      { ao with quantity := ao.quantity - min bo.quantity ao.quantity }
      oid h2',
    getOrder_setOrder_ne _
      { bo with quantity := bo.quantity - min bo.quantity ao.quantity }
      oid h1']

/-- Claim C7 witness: applied to the Scenario 3 pre-match state, the step
leaves the third (latest) buy's record unchanged. -/
theorem c7_fifo_discipline_witness :
    fifoMid.getOrder 3 = fifoPreMatch.getOrder 3 := by
  have h := c7_fifo_discipline fifoPreMatch fifoMid ⟨1, 4, 100, 100⟩ (by decide)
  exact h.1.2.2 3 (by decide) (by decide)

/-- Claim C9 (confirmed).  Cancelling an id whose cancel already succeeded
returns `false` and leaves the book — version counter, order count, and both
level sets included — exactly unchanged: the first successful cancel erased
the id from the order lookup, so the second call takes the not-found path of
order_book.cpp lines 390-394. -/
theorem c9_cancel_idempotent (b : OrderBook) (id : Nat) (b1 : OrderBook)
    (h : b.cancel_order id = (true, b1)) :
    b1.cancel_order id = (false, b1) := by
  unfold OrderBook.cancel_order at h
  by_cases h0 : id = 0
  · rw [if_pos h0] at h
    exact absurd (congrArg Prod.fst h) (by simp)
  rw [if_neg h0] at h
  cases hg : b.getOrder id with
  | none =>
    simp only [hg] at h
    exact absurd (congrArg Prod.fst h) (by simp)
  | some o =>
    simp only [hg] at h
    by_cases ha : o.is_active = false
    · rw [if_pos ha] at h
      exact absurd (congrArg Prod.fst h) (by simp)
    rw [if_neg ha] at h
    rw [Prod.mk.injEq] at h
    obtain ⟨-, h2⟩ := h
    subst h2
    have hlook : ({ (b.eraseOrder id).cancel_level_update o with
        version := (((b.eraseOrder id).cancel_level_update o).version + 1) %
          U64_MOD } : OrderBook).order_lookup = alErase b.order_lookup id := by
      show ((b.eraseOrder id).cancel_level_update o).order_lookup = _
      rw [order_lookup_cancel_level_update]
      rfl
    have hnone : ({ (b.eraseOrder id).cancel_level_update o with
        version := (((b.eraseOrder id).cancel_level_update o).version + 1) %
          U64_MOD } : OrderBook).getOrder id = none := by
      rw [OrderBook.getOrder, hlook]
      exact alFind_alErase_self _ _
    unfold OrderBook.cancel_order
    rw [if_neg h0]
    simp only [hnone]

/-- Claim C9 witness: cancel the single resting order of `oneBidBook`, then
cancel the same id again. -/
theorem c9_cancel_idempotent_witness :
    OrderBook.cancel_order ⟨[], [], [], 2, false⟩ 1 =
      (false, ⟨[], [], [], 2, false⟩) :=
  c9_cancel_idempotent oneBidBook 1 ⟨[], [], [], 2, false⟩ (by decide)

/-- Claim C8 (amended).  `add_order` leaves the book unchanged exactly when the
input is invalid, where the accepted price interval is the *closed*
`[MIN_PRICE, MAX_PRICE]` (the source rejects on `price < MIN_PRICE` /
`price > MAX_PRICE`, order_book.cpp line 343): the operation accepts an order
iff its id is non-zero and not already resting, `MIN_PRICE ≤ price ≤
MAX_PRICE`, and `1 ≤ quantity ≤ MAX_ORDER_QUANTITY`; every rejected call is a
no-op on the state (its only effect is the diagnostic). -/
theorem c8_validation_amended (b : OrderBook) (o : Order) :
    (b.add_order o).1 = b ↔ ¬ OrderBook.addValid b o := by
  constructor
  · intro heq hv
    have hver := add_order_version_of_valid b o hv
    rw [heq] at hver
    exact succ_mod_ne b.version hver.symm
  · intro hv
    unfold OrderBook.add_order
    by_cases h1 : o.order_id = 0
    · rw [if_pos h1]
    · rw [if_neg h1]
      by_cases h2 : o.price < MIN_PRICE ∨ o.price > MAX_PRICE
      · rw [if_pos h2]
      · rw [if_neg h2]
        by_cases h3 : o.quantity = 0 ∨ o.quantity > MAX_ORDER_QUANTITY
        · rw [if_pos h3]
        · rw [if_neg h3]
          by_cases h4 : (b.getOrder o.order_id).isSome = true
          · rw [if_pos h4]
          · exfalso
            apply hv
            push_neg at h2 h3
            refine ⟨h1, h2.1, h2.2, Nat.one_le_iff_ne_zero.mpr h3.1, h3.2, ?_⟩
            cases hopt : b.getOrder o.order_id with
            | none => rfl
            | some x => exact absurd (by rw [hopt]; rfl) h4

/-- The bound `MAX_PRICE` is strictly below the `DBL_MAX` sentinel, so every resting ask
price the validator admits is distinguishable from the sentinel. -/
theorem MAX_PRICE_lt_DBL_MAX : MAX_PRICE < DBL_MAX := by decide

/-- Claim C6 (amended).  `get_spread` returns `best_ask - best_bid` whenever the
ask side is non-empty (with every resting ask priced at most `MAX_PRICE`, so
the `DBL_MAX` sentinel test fails), and `0` when the ask side is empty.  When
only the bid side is empty the subtraction still happens against the `0` bid
sentinel, so the spread equals the best ask price rather than `0`. -/
theorem c6_spread_amended (b : OrderBook)
    (hp : ∀ e ∈ b.asks, e.2.price ≤ MAX_PRICE) :
    (b.asks = [] → b.get_spread = 0) ∧
    (b.asks ≠ [] → b.get_spread = b.get_best_ask - b.get_best_bid) ∧
    (b.asks ≠ [] → b.bids = [] → b.get_spread = b.get_best_ask) := by
  rcases ha : b.asks with _ | ⟨e, rest⟩
  · refine ⟨fun _ => ?_, fun hne => absurd rfl hne, fun hne => absurd rfl hne⟩
    simp [OrderBook.get_spread, OrderBook.get_best_ask, ha]
  · have hbest : b.get_best_ask = e.2.price := by
      simp [OrderBook.get_best_ask, ha]
    have hle : e.2.price ≤ MAX_PRICE := hp e (by rw [ha]; exact List.mem_cons_self e rest)
    have hne : ¬ (b.get_best_ask = DBL_MAX) := by
      rw [hbest]
      exact ne_of_lt (lt_of_le_of_lt hle MAX_PRICE_lt_DBL_MAX)
    refine ⟨fun hc => absurd hc (List.cons_ne_nil e rest), fun _ => ?_,
      fun _ hbids => ?_⟩
    · rw [OrderBook.get_spread, if_neg hne]
    · rw [OrderBook.get_spread, if_neg hne]
      simp [OrderBook.get_best_bid, hbids]

/-- Claim C6 witness: the amended statement applied to the bid-empty book
`oneAskBook`. -/
theorem c6_spread_amended_witness :
    (oneAskBook.asks = [] → oneAskBook.get_spread = 0) ∧
    (oneAskBook.asks ≠ [] →
      oneAskBook.get_spread = oneAskBook.get_best_ask - oneAskBook.get_best_bid) ∧
    (oneAskBook.asks ≠ [] → oneAskBook.bids = [] →
      oneAskBook.get_spread = oneAskBook.get_best_ask) :=
  c6_spread_amended oneAskBook (by decide)

/-- Claim C8 witness: the amended validation equivalence instantiated at the
empty book and the zero-id order. -/
theorem c8_validation_amended_witness :
    ((OrderBook.empty.add_order ⟨0, true, 100, 1, 1, true⟩).1 = OrderBook.empty
      ↔ ¬ OrderBook.addValid OrderBook.empty ⟨0, true, 100, 1, 1, true⟩) :=
  c8_validation_amended OrderBook.empty ⟨0, true, 100, 1, 1, true⟩
